import Mathlib

/-!
Verification of the YouTube-to-Twitch chat relay (`youtube-relay/`).

Shallow embedding of the relay's source files:

* `bot.py` — spam-guard state (`_is_rate_limited`, `_is_duplicate`,
  `_cleanup_spam_state`), the stream-status file reader
  (`_read_stream_status`) and the consumer pipeline in `start`;
* `twitch_bot.py` — `is_message_blocked`, `is_channel_live`,
  `send_message`;
* `youtube_reader.py` — the `_read_loop` reconnect/backoff logic;
* `emoji_converter.py` — `convert` and `collapse_emojis` together with
  the regex scanner for the shortcode pattern `:[a-zA-Z0-9_-]+:`.

Timestamps (Python `time.time()` floats) are modelled as integers
(an arbitrary-precision tick count: the code only compares and subtracts
time values, so any linearly ordered abelian group is an adequate model),
strings as `String`/`List Char`, HTTP and file-system effects as
explicit outcome values passed to the embedded functions.
-/

namespace Relay

/-! ### Constants from `bot.py` and `youtube_reader.py` -/

/-- `RATE_LIMIT_WINDOW = 30` (seconds), `bot.py`. -/
def RATE_LIMIT_WINDOW : ℤ := 30

/-- `RATE_LIMIT_MAX_MESSAGES = 3`, `bot.py`. -/
def RATE_LIMIT_MAX_MESSAGES : ℕ := 3

/-- `DUPLICATE_WINDOW = 30` (seconds), `bot.py`. -/
def DUPLICATE_WINDOW : ℤ := 30

/-! ### Spam guard: `YouTubeToTwitchBot._is_rate_limited`

The per-author timestamp list `self._user_timestamps[author]`.
`_is_rate_limited` prunes it with `[t for t in ... if t > cutoff]`
(`cutoff = now - RATE_LIMIT_WINDOW`), blocks without appending when the
pruned length is `>= RATE_LIMIT_MAX_MESSAGES`, otherwise appends `now`
and allows. -/

/-- The pruning list comprehension: keep `t` with `t > now - W`. -/
def pruneTimestamps (W now : ℤ) (ts : List ℤ) : List ℤ :=
  ts.filter (fun t => decide (now - W < t))

/-- `_is_rate_limited`, parametric in window `W` and limit `K`; returns
the boolean result and the new value of `self._user_timestamps[author]`. -/
def isRateLimited (W : ℤ) (K : ℕ) (now : ℤ) (ts : List ℤ) : Bool × List ℤ :=
  let pruned := pruneTimestamps W now ts
  if K ≤ pruned.length then (true, pruned)
  else (false, pruned ++ [now])

/-- Run `_is_rate_limited` over a sequence of call times, collecting the
call times at which the check returned `false` (message allowed). -/
def allowedCalls (W : ℤ) (K : ℕ) (ts : List ℤ) : List ℤ → List ℤ
  | [] => []
  | c :: cs =>
    let r := isRateLimited W K c ts
    if r.1 then allowedCalls W K r.2 cs
    else c :: allowedCalls W K r.2 cs

/-- Membership test for the half-open window `(a, a + W]`. -/
def inWin (W a t : ℤ) : Bool := decide (a < t) && decide (t ≤ a + W)

/-- Number of entries of `l` inside the window `(a, a + W]`. -/
def winCount (W a : ℤ) (l : List ℤ) : ℕ := (l.filter (inWin W a)).length

/-! ### Spam guard: `YouTubeToTwitchBot._is_duplicate`

`self._user_last_message.get(author)` is `None` or `(text, time)`.  When
the stored text equals the new text and its age is strictly less than
`DUPLICATE_WINDOW`, return `True` leaving the entry unchanged; otherwise
overwrite the entry with `(message, now)` and return `False`. -/

/-- `_is_duplicate`, parametric in the window `DW`; returns the boolean
result and the new value of `self._user_last_message[author]`. -/
def isDuplicate (DW : ℤ) (now : ℤ) (last : Option (String × ℤ)) (msg : String) :
    Bool × Option (String × ℤ) :=
  match last with
  | some (lastMsg, lastTime) =>
    if lastMsg = msg ∧ now - lastTime < DW then (true, some (lastMsg, lastTime))
    else (false, some (msg, now))
  | none => (false, some (msg, now))

/-! ### Spam guard: `YouTubeToTwitchBot._cleanup_spam_state`

The two dicts are modelled as total functions; a deleted key behaves
exactly like its absent-key default (`defaultdict(list)` yields `[]`,
`dict.get` yields `None`). -/

/-- Cleanup of one author's timestamp list: the entry is deleted when
`not timestamps or timestamps[-1] < cutoff` with `cutoff = now - W`. -/
def cleanupTsList (W now : ℤ) (l : List ℤ) : List ℤ :=
  match l.getLast? with
  | none => []
  | some last => if last < now - W then [] else l

/-- Cleanup of one author's last-message entry: deleted when
`(now - ts) > DUPLICATE_WINDOW`. -/
def cleanupLastEntry (DW now : ℤ) (o : Option (String × ℤ)) : Option (String × ℤ) :=
  match o with
  | none => none
  | some (m, ts) => if DW < now - ts then none else some (m, ts)

/-- `_cleanup_spam_state` acting on the `_user_timestamps` dict. -/
def cleanupTimestamps (W now : ℤ) (f : String → List ℤ) : String → List ℤ :=
  fun a => cleanupTsList W now (f a)

/-- `_cleanup_spam_state` acting on the `_user_last_message` dict. -/
def cleanupLastMessages (DW now : ℤ) (g : String → Option (String × ℤ)) :
    String → Option (String × ℤ) :=
  fun a => cleanupLastEntry DW now (g a)

end Relay


namespace Relay

/-! ### `emoji_converter.py`: the shortcode scanner

The Python module compiles `re.compile(r":[a-zA-Z0-9_-]+:")` and uses it
via `findall` and `sub`.  For this pattern a regex match at a position
is: a `:`, a maximal nonempty run of `[a-zA-Z0-9_-]` characters, then a
`:` (greedy `+` with backtracking cannot match anything else, since `:`
is not in the character class).  `findall`/`sub` take the leftmost
match, emit/replace it, and continue scanning right after it; at a
non-matching position they advance one character.

The scanners below recurse on an explicit fuel argument so that they
are structurally recursive (and hence kernel-computable); each wrapper
passes `fuel = length of the string`, which the scan can never exhaust
since every step consumes at least one character. -/

/-- The character class `[a-zA-Z0-9_-]`. -/
def isShortcodeChar (c : Char) : Bool := c.isAlphanum || c = '_' || c = '-'

/-- Try to match `:[a-zA-Z0-9_-]+:` at the head of `l`; on success
return the matched text and the remainder of the string. -/
def matchEmoji (l : List Char) : Option (List Char × List Char) :=
  match l with
  | ':' :: rest =>
    let w := rest.takeWhile isShortcodeChar
    match rest.dropWhile isShortcodeChar with
    | ':' :: r' => if w.isEmpty then none else some (':' :: w ++ [':'], r')
    | _ => none
  | _ => none

theorem matchEmoji_length {l : List Char} {e r : List Char}
    (h : matchEmoji l = some (e, r)) : r.length < l.length := by
  match l with
  | [] => simp [matchEmoji] at h
  | c :: rest =>
    by_cases hc : c = ':'
    · subst hc
      simp only [matchEmoji] at h
      split at h
      case _ r' heq =>
        split at h
        · exact absurd h (by simp)
        · have hlen : (rest.dropWhile isShortcodeChar).length ≤ rest.length :=
            List.Sublist.length_le (List.dropWhile_sublist _)
          rw [heq] at hlen
          simp only [Option.some.injEq, Prod.mk.injEq] at h
          rw [← h.2]
          simp only [List.length_cons] at hlen ⊢
          omega
      · exact absurd h (by simp)
    · rw [show matchEmoji (c :: rest) = none by
        unfold matchEmoji
        split
        · simp_all
        · rfl] at h
      exact absurd h (by simp)

/-- Fuelled scanner for `self._pattern.findall(message)`. -/
def findAllEmojisF : ℕ → List Char → List (List Char)
  | 0, _ => []
  | _ + 1, [] => []
  | fuel + 1, c :: cs =>
    match matchEmoji (c :: cs) with
    | some (e, rest) => e :: findAllEmojisF fuel rest
    | none => findAllEmojisF fuel cs

/-- `self._pattern.findall(message)`: all matches, scanned left to
right, continuing after each match. -/
def findAllEmojis (l : List Char) : List (List Char) := findAllEmojisF l.length l

/-- Fuelled version of the stateful replacement pass of
`collapse_emojis` (`self._pattern.sub(replace_match, message)`):
`counts` is the occurrence-count dict built from `findall`, `seen` is
the `seen`/`unique_order` insertion-order list.  A first occurrence
under the unique limit is kept (followed by `" x{count} "` when its
count exceeds one); a repeat occurrence, or a first occurrence at the
limit, is replaced by the empty string. -/
def collapseSubF (counts : List Char → ℕ) (maxU : ℕ) :
    ℕ → List (List Char) → List Char → List Char
  | 0, _, _ => []
  | _ + 1, _, [] => []
  | fuel + 1, seen, c :: cs =>
    match matchEmoji (c :: cs) with
    | some (e, rest) =>
      if e ∈ seen then collapseSubF counts maxU fuel seen rest
      else if maxU ≤ seen.length then collapseSubF counts maxU fuel seen rest
      else
        (if 1 < counts e then e ++ (" x" ++ toString (counts e) ++ " ").data else e)
          ++ collapseSubF counts maxU fuel (seen ++ [e]) rest
    | none => c :: collapseSubF counts maxU fuel seen cs

/-- The replacement pass of `collapse_emojis`, starting from the empty
`seen`/`unique_order` state. -/
def collapseSub (counts : List Char → ℕ) (maxU : ℕ) (l : List Char) : List Char :=
  collapseSubF counts maxU l.length [] l

/-- Fuelled scanner for
`re.sub(r"(?<=\S)(:[a-zA-Z0-9_-]+:)", r" \1", result)`: insert a space
before a shortcode jammed against a preceding non-whitespace character.
`prev` is the character preceding the current scan position in the
original string (the lookbehind examines the input, not the
replacement).  When the lookbehind fails the scanner advances a single
character, so a later overlapping shortcode can still match. -/
def jamFixF : ℕ → Option Char → List Char → List Char
  | 0, _, _ => []
  | _ + 1, _, [] => []
  | fuel + 1, prev, c :: cs =>
    match matchEmoji (c :: cs) with
    | some (e, rest) =>
      match prev with
      | some p =>
        if p.isWhitespace then c :: jamFixF fuel (some c) cs
        else ' ' :: (e ++ jamFixF fuel (some ':') rest)
      | none => c :: jamFixF fuel (some c) cs
    | none => c :: jamFixF fuel (some c) cs

/-- The jammed-emoji space fix over a whole string (no character
precedes the first position). -/
def jamFix (l : List Char) : List Char := jamFixF l.length none l

/-- `re.sub(r"  +", " ", result)`: collapse each run of two or more
spaces to a single space. -/
def squeezeSpaces : List Char → List Char
  | [] => []
  | [c] => [c]
  | a :: b :: rest =>
    if a = ' ' ∧ b = ' ' then squeezeSpaces (b :: rest)
    else a :: squeezeSpaces (b :: rest)

/-- Python `str.strip()`: drop leading and trailing whitespace. -/
def pyStrip (l : List Char) : List Char :=
  ((l.dropWhile Char.isWhitespace).reverse.dropWhile Char.isWhitespace).reverse

/-- `EmojiConverter.collapse_emojis(message, max_unique)`.  Returns the
message unchanged when `findall` finds no shortcode; otherwise applies
the counting/stripping substitution, the jammed-emoji space fix, the
double-space cleanup and `strip()`. -/
def collapse_emojis (maxU : ℕ) (m : List Char) : List Char :=
  let all := findAllEmojis m
  if all.isEmpty then m
  else pyStrip (squeezeSpaces (jamFix (collapseSub (fun e => all.count e) maxU m)))

/-- First-match lookup in the `_mappings` dict (`emoji in self._mappings`
then `self._mappings[emoji]`). -/
def lookupMap (mp : List (String × String)) (k : String) : Option String :=
  (mp.find? (fun p => p.1 == k)).map (·.2)

/-- Fuelled replacement pass of `EmojiConverter.convert`: each shortcode
match is replaced by its mapping when present, else left as-is. -/
def convertSubF (mp : List (String × String)) : ℕ → List Char → List Char
  | 0, _ => []
  | _ + 1, [] => []
  | fuel + 1, c :: cs =>
    match matchEmoji (c :: cs) with
    | some (e, rest) =>
      (match lookupMap mp (String.mk e) with
       | some v => v.data
       | none => e) ++ convertSubF mp fuel rest
    | none => c :: convertSubF mp fuel cs

/-- `EmojiConverter.convert(message)`: returns the message unchanged when
the mapping dict is empty, else substitutes each mapped shortcode. -/
def convert (mp : List (String × String)) (m : List Char) : List Char :=
  if mp.isEmpty then m else convertSubF mp m.length m

end Relay


namespace Relay

/-! ### `twitch_bot.py`: moderation, liveness probe, send

HTTP effects are passed in as explicit outcomes: a `NetError` stands
for a raised `requests.exceptions.RequestException` (timeouts and
connection failures, the `HTTPError` from `raise_for_status`, and the
`JSONDecodeError` of `response.json()`, all caught by the code's
`except` clauses). -/

/-- A raised `requests` exception. -/
inductive NetError where
  | timeout
  | connFailure
  | httpError (code : ℕ)
  | parseError
deriving DecidableEq

/-- Python `str.lower()` (code points relevant here are ASCII). -/
def pyLower (s : String) : String := String.mk (s.data.map Char.toLower)

/-- Python substring containment `pat in s` (contiguous). -/
def isSubstring (pat : List Char) : List Char → Bool
  | [] => pat.isEmpty
  | l@(_ :: rest) => pat.isPrefixOf l || isSubstring pat rest

/-- `TwitchBot.is_message_blocked`: `self.blocked_terms` is a flat list
of (lowercase) strings; the message is lowercased and each term is
tested with Python `term in message_lower` (contiguous substring), in
list order; `(False, None)` when the list is empty or nothing matches.
Returns `some matchedTerm` / `none` for `(True, term)` / `(False, None)`. -/
def is_message_blocked (terms : List String) (msg : String) : Option String :=
  if terms.isEmpty then none
  else terms.find? (fun t => isSubstring t.data (pyLower msg).data)

/-- One entry of the streams payload `data['data']`; `type` models
`stream_info.get('type', '')` (absent key → `none`, read with
default `""`). -/
structure StreamInfo where
  type : Option String
deriving DecidableEq

/-- `TwitchBot.is_channel_live`, after the streams query succeeded with
a payload that does not show a live stream: the username lookup is
performed for the log message and the function returns `False` on any
of its non-raising outcomes; a raised `RequestException` is caught by
the enclosing handler, which returns `True`. -/
def offlineAfterStreamsOk : Except NetError Unit → Bool
  | .error _ => true
  | .ok _ => false

/-- `TwitchBot.is_channel_live`.  `streams` is the outcome of the
`helix/streams` GET (`raise_for_status` + `response.json()`); `user` the
outcome of the `helix/users` GET.  Any raised `RequestException` is
caught and the function returns `True` ("Assuming channel is live"). -/
def is_channel_live (streams : Except NetError (List StreamInfo))
    (user : Except NetError Unit) : Bool :=
  match streams with
  | .error _ => true
  | .ok data =>
    match data with
    | s0 :: _ =>
      if s0.type.getD "" = "live" then true
      else offlineAfterStreamsOk user
    | [] => offlineAfterStreamsOk user

/-- Result of `TwitchBot.send_message`: how many POSTs to
`helix/chat/messages` were issued, and whether one returned 200. -/
structure SendResult where
  posts : ℕ
  delivered : Bool
deriving DecidableEq

/-- `TwitchBot.send_message`.  `post n` is the outcome (HTTP status or
raised exception) the environment would give to the `(n+1)`-st POST.
The body issues exactly one POST: a non-200 status is logged and the
message dropped, a raised `RequestException` is caught and logged;
there is no 401 handling, token refresh, or retry. -/
def send_message (post : ℕ → Except NetError ℕ) : SendResult :=
  match post 0 with
  | .ok code => ⟨1, code == 200⟩
  | .error _ => ⟨1, false⟩

end Relay

namespace Relay

/-! ### `youtube_reader.py`: `_read_loop` reconnect/backoff -/

/-- `backoff = 5` (the reset value and initial value), `_read_loop`. -/
def BACKOFF_FLOOR : ℕ := 5

/-- `max_backoff = 300`, `_read_loop`. -/
def MAX_BACKOFF : ℕ := 300

/-- Control-flow summary of one iteration of the outer `while` of
`_read_loop`: where the iteration's work stopped. -/
inductive CycleOutcome where
  /-- `_find_live_video_id` raised, or found no live stream. -/
  | locateFail
  /-- `_get_initial_chat_data` raised. -/
  | handshakeFail
  /-- the handshake succeeded (`backoff = 5` was executed), then some
  `_poll_chat` call raised, after zero or more successful polls (which
  do not touch `backoff`). -/
  | pollFail
  /-- the handshake succeeded, then the server returned no new
  continuation token and the poll loop ended without an exception. -/
  | chatEnd
deriving DecidableEq

/-- One iteration of `_read_loop`'s outer loop: the backoff sleep
observed at the end of the iteration and the next value of `backoff`
(`backoff = min(backoff * 2, max_backoff)`). -/
def loopIter (backoff : ℕ) (o : CycleOutcome) : ℕ × ℕ :=
  let b := match o with
    | .locateFail => backoff
    | .handshakeFail => backoff
    | .pollFail => BACKOFF_FLOOR
    | .chatEnd => BACKOFF_FLOOR
  (b, min (b * 2) MAX_BACKOFF)

/-- Run `_read_loop` over a sequence of iteration outcomes, collecting
the observed backoff sleeps. -/
def runReadLoop (backoff : ℕ) : List CycleOutcome → List ℕ
  | [] => []
  | o :: os =>
    let r := loopIter backoff o
    r.1 :: runReadLoop r.2 os

end Relay

namespace Relay

/-! ### `bot.py`: stream-status file and the consumer pipeline -/

/-- JSON values, for the parsed content of `data/stream-status.json`. -/
inductive Json where
  | null
  | bool (b : Bool)
  | num (n : ℤ)
  | str (s : String)
  | arr (elems : List Json)
  | obj (fields : List (String × Json))

/-- Failure to open or parse the status file: the caught
`FileNotFoundError`, `json.JSONDecodeError` and `OSError`. -/
inductive ReadError where
  | fileMissing
  | notJson
  | osError
deriving DecidableEq

/-- Python `dict` lookup on a parsed JSON object. -/
def jsonLookup : List (String × Json) → String → Option Json
  | [], _ => none
  | (k, v) :: rest, key => if k == key then some v else jsonLookup rest key

/-- `info.get("live") is True`: the field is present and is exactly the
boolean `True`. -/
def isLiveTrue : Option Json → Bool
  | some (.bool true) => true
  | _ => false

/-- One channel entry of the status file:
`isinstance(info, dict) and info.get("live") is True`. -/
def channelIsLive : String × Json → Bool
  | (_, .obj fields) => isLiveTrue (jsonLookup fields "live")
  | _ => false

/-- `YouTubeToTwitchBot._read_stream_status`.  `file` is the outcome of
opening and `json.load`-ing `data/stream-status.json`, its content
modelled as the parsed top-level object's items. -/
def read_stream_status (file : Except ReadError (List (String × Json))) : Bool :=
  match file with
  | .error _ => false
  | .ok entries => entries.any channelIsLive

/-- The liveness gate of the consumer loop in `start`: after a periodic
status check, `was_live` becomes the value returned by
`_read_stream_status`, and queue messages are consumed in this pass only
when it is true (`if not was_live: time.sleep(1); continue`). -/
def consumesAfterStatusCheck (file : Except ReadError (List (String × Json))) : Bool :=
  read_stream_status file

/-- The spam-guard state of `YouTubeToTwitchBot`, both dicts modelled as
total functions (a missing key reads as the dict's default). -/
structure SpamState where
  userTimestamps : String → List ℤ
  userLastMessage : String → Option (String × ℤ)

/-- Pointwise update of one author's entry. -/
def updateFn {α : Type} (f : String → α) (k : String) (v : α) : String → α :=
  fun x => if x == k then v else f x

/-- `message_text[0].upper() + message_text[1:]` guarded by
`if message_text:`. -/
def capFirst : List Char → List Char
  | [] => []
  | c :: cs => c.toUpper :: cs

/-- The default `message_format`, `"[YT] {author}: {message}"`, rendered
by `str.format`. -/
def formatDefault (author text : String) : String := "[YT] " ++ author ++ ": " ++ text

/-- `if len(formatted_msg) > 500: formatted_msg = formatted_msg[:497] + "..."`. -/
def truncate500 (s : String) : String :=
  if 500 < s.data.length then String.mk (s.data.take 497) ++ "..." else s

/-- What the consumer loop did with one dequeued message. -/
inductive Outcome where
  | duplicate
  | rateLimited
  | blocked (term : String)
  | delivered (text : String)
deriving DecidableEq

/-- One pass of the consumer body of `YouTubeToTwitchBot.start` for a
dequeued message (with the default message format): capitalize the
first letter, convert emojis, duplicate check, rate-limit check, format
and truncate, blocked-terms check, send.  Parametric in the limit `K`
and the windows `W`, `DW` (the code uses the module constants). -/
def processMessage (K : ℕ) (W DW : ℤ) (emap : List (String × String))
    (terms : List String) (st : SpamState) (now : ℤ) (author msg : String) :
    Outcome × SpamState :=
  let text := String.mk (convert emap (capFirst msg.data))
  let dup := isDuplicate DW now (st.userLastMessage author) text
  let st1 : SpamState := ⟨st.userTimestamps, updateFn st.userLastMessage author dup.2⟩
  if dup.1 then (.duplicate, st1)
  else
    let rl := isRateLimited W K now (st.userTimestamps author)
    let st2 : SpamState := ⟨updateFn st1.userTimestamps author rl.2, st1.userLastMessage⟩
    if rl.1 then (.rateLimited, st2)
    else
      let formatted := truncate500 (formatDefault author text)
      match is_message_blocked terms formatted with
      | some term => (.blocked term, st2)
      | none => (.delivered formatted, st2)

/-- The consumer loop over a sequence of dequeued messages
`(arrival time, author, text)`, collecting the outcomes. -/
def runPipeline (K : ℕ) (W DW : ℤ) (emap : List (String × String))
    (terms : List String) (st : SpamState) : List (ℤ × String × String) → List Outcome
  | [] => []
  | (now, author, msg) :: rest =>
    let r := processMessage K W DW emap terms st now author msg
    r.1 :: runPipeline K W DW emap terms r.2 rest

/-- The empty spam-guard state (fresh `defaultdict(list)` / `{}`). -/
def initialSpamState : SpamState := ⟨fun _ => [], fun _ => none⟩

end Relay


namespace Relay

/-- Discriminator: did the pipeline deliver this message? -/
def isDeliveredOutcome : Outcome → Bool
  | .delivered _ => true
  | _ => false

/-- The streams payload shows a live stream: `data['data']` is nonempty
and `data['data'][0].get('type', '') == 'live'`. -/
def streamsShowLive : List StreamInfo → Bool
  | s0 :: _ => s0.type.getD "" == "live"
  | [] => false

/-- Modelled from the spec: the spec's moderation scenario compiles the
block-list entry `"/f[uo]+bar/i"` as the case-insensitive regex
`f[uo]+bar` (`src/`'s `is_message_blocked` has no pattern set; this
matcher realises what the spec says that pattern should do).  Matches
`f[uo]+bar` at the head of the string: `f`, a maximal nonempty run of
`u`/`o`, then `bar` (backtracking a greedy `[uo]+` cannot help, since
`b` is not in the class). -/
def fuobarAt : List Char → Bool
  | 'f' :: rest =>
    !(rest.takeWhile (fun c => c = 'u' || c = 'o')).isEmpty
      && "bar".data.isPrefixOf (rest.dropWhile (fun c => c = 'u' || c = 'o'))
  | _ => false

/-- Modelled from the spec: regex search of `f[uo]+bar` anywhere in the
(already lowercased) string. -/
def containsFUoBar : List Char → Bool
  | [] => false
  | c :: cs => fuobarAt (c :: cs) || containsFUoBar cs

end Relay

namespace Relay

/-! ### Window-bound lemmas for the rate limiter -/

theorem mem_allowedCalls {W : ℤ} {K : ℕ} {x : ℤ} :
    ∀ {calls ts : List ℤ}, x ∈ allowedCalls W K ts calls → x ∈ calls := by
  intro calls
  induction calls with
  | nil => intro ts h; simp [allowedCalls] at h
  | cons c cs ih =>
    intro ts h
    simp only [allowedCalls] at h
    split at h
    · exact List.mem_cons_of_mem c (ih h)
    · rcases List.mem_cons.1 h with h | h
      · exact h ▸ List.mem_cons_self c cs
      · exact List.mem_cons_of_mem c (ih h)

theorem winCount_append (W a : ℤ) (l₁ l₂ : List ℤ) :
    winCount W a (l₁ ++ l₂) = winCount W a l₁ + winCount W a l₂ := by
  simp [winCount, List.filter_append]

theorem winCount_eq_zero {W a : ℤ} {l : List ℤ}
    (h : ∀ x ∈ l, inWin W a x = false) : winCount W a l = 0 := by
  simp only [winCount, List.length_eq_zero]
  induction l with
  | nil => rfl
  | cons x xs ih =>
    simp only [List.filter_cons, h x (List.mem_cons_self x xs), Bool.false_eq_true,
      if_false]
    exact ih fun y hy => h y (List.mem_cons_of_mem x hy)

theorem winCount_prune {W a c : ℤ} (l : List ℤ) (hc : c ≤ a + W) :
    winCount W a (l.filter (fun t => decide (c - W < t))) = winCount W a l := by
  unfold winCount
  rw [List.filter_filter]
  congr 1
  apply List.filter_congr
  intro x _
  cases hx : inWin W a x with
  | false => simp
  | true =>
    simp only [inWin, Bool.and_eq_true, decide_eq_true_eq] at hx
    simp only [Bool.true_and, decide_eq_true_eq]
    omega

theorem winCount_singleton_le (W a c : ℤ) : winCount W a [c] ≤ 1 := by
  simp only [winCount, List.filter]
  cases inWin W a c <;> simp

theorem winCount_le_length (W a : ℤ) (l : List ℤ) : winCount W a l ≤ l.length :=
  List.length_filter_le _ l

/-- Invariant for the sliding-window bound: starting from a state whose
entries all precede every remaining call time, and with nondecreasing
call times, the state entries plus the allowed calls that land in any
window `(a, a + W]` never exceed `max K (state entries in the window)`. -/
theorem winCount_allowedCalls_le (W : ℤ) (K : ℕ) :
    ∀ (calls ts : List ℤ), calls.Sorted (· ≤ ·) →
      (∀ x ∈ ts, ∀ c ∈ calls, x ≤ c) → ∀ a : ℤ,
      winCount W a ts + winCount W a (allowedCalls W K ts calls)
        ≤ max K (winCount W a ts) := by
  intro calls
  induction calls with
  | nil =>
    intro ts _ _ a
    simp only [allowedCalls, winCount, List.filter_nil, List.length_nil]
    omega
  | cons c cs ih =>
    intro ts hs h2 a
    rw [List.sorted_cons] at hs
    set pruned := ts.filter (fun t => decide (c - W < t)) with hpruned
    have hmem : ∀ x ∈ pruned, x ∈ ts := fun x hx => (List.mem_filter.1 hx).1
    by_cases hK : K ≤ pruned.length
    · have hstep : allowedCalls W K ts (c :: cs) = allowedCalls W K pruned cs := by
        simp [allowedCalls, isRateLimited, pruneTimestamps, ← hpruned, hK]
      have h2p : ∀ x ∈ pruned, ∀ c' ∈ cs, x ≤ c' :=
        fun x hx c' hc' => h2 x (hmem x hx) c' (List.mem_cons_of_mem c hc')
      have IH := ih pruned hs.2 h2p a
      rw [hstep]
      by_cases hca : c ≤ a + W
      · have heq : winCount W a pruned = winCount W a ts := winCount_prune ts hca
        omega
      · have hzero : winCount W a (allowedCalls W K pruned cs) = 0 := by
          apply winCount_eq_zero
          intro x hx
          have hxc : c ≤ x := hs.1 x (mem_allowedCalls hx)
          simp only [inWin, Bool.and_eq_false_iff, decide_eq_false_iff_not]
          right; omega
        rw [hzero]
        omega
    · have hstep : allowedCalls W K ts (c :: cs)
          = c :: allowedCalls W K (pruned ++ [c]) cs := by
        simp [allowedCalls, isRateLimited, pruneTimestamps, ← hpruned, hK]
      have h2p : ∀ x ∈ pruned ++ [c], ∀ c' ∈ cs, x ≤ c' := by
        intro x hx c' hc'
        rcases List.mem_append.1 hx with hx | hx
        · exact h2 x (hmem x hx) c' (List.mem_cons_of_mem c hc')
        · rcases List.mem_singleton.1 hx with rfl
          exact hs.1 c' hc'
      have IH := ih (pruned ++ [c]) hs.2 h2p a
      rw [winCount_append] at IH
      rw [hstep]
      have hsplit : winCount W a (c :: allowedCalls W K (pruned ++ [c]) cs)
          = winCount W a [c] + winCount W a (allowedCalls W K (pruned ++ [c]) cs) := by
        rw [show c :: allowedCalls W K (pruned ++ [c]) cs
            = [c] ++ allowedCalls W K (pruned ++ [c]) cs from rfl, winCount_append]
      rw [hsplit]
      by_cases hca : c ≤ a + W
      · have heq : winCount W a pruned = winCount W a ts := winCount_prune ts hca
        have hwc : winCount W a pruned ≤ pruned.length := winCount_le_length W a pruned
        have hc1 : winCount W a [c] ≤ 1 := winCount_singleton_le W a c
        omega
      · have hzero : winCount W a (allowedCalls W K (pruned ++ [c]) cs) = 0 := by
          apply winCount_eq_zero
          intro x hx
          have hxc : c ≤ x := hs.1 x (mem_allowedCalls hx)
          simp only [inWin, Bool.and_eq_false_iff, decide_eq_false_iff_not]
          right; omega
        have hc0 : winCount W a [c] = 0 := by
          apply winCount_eq_zero
          intro x hx
          rcases List.mem_singleton.1 hx with rfl
          simp only [inWin, Bool.and_eq_false_iff, decide_eq_false_iff_not]
          right; omega
        rw [hzero, hc0]
        omega

end Relay

open Relay in
/-- C1: for every author and every nondecreasing sequence of calls to
`_is_rate_limited` starting from a fresh timestamp list, at most
`RATE_LIMIT_MAX_MESSAGES` calls return `false` (allowed) with call times
inside any window `(a, a + RATE_LIMIT_WINDOW]`, regardless of message
content (the check never looks at the message); and each single call
prunes the list to entries newer than `now - RATE_LIMIT_WINDOW`, returns
`true` without appending when the pruned count is at least the limit,
and otherwise appends `now` and returns `false`. -/
theorem C1_rate_limit_window (calls : List ℤ) (hs : calls.Sorted (· ≤ ·)) :
    (∀ a : ℤ, winCount RATE_LIMIT_WINDOW a
        (allowedCalls RATE_LIMIT_WINDOW RATE_LIMIT_MAX_MESSAGES [] calls)
      ≤ RATE_LIMIT_MAX_MESSAGES)
    ∧ (∀ now ts, RATE_LIMIT_MAX_MESSAGES ≤ (pruneTimestamps RATE_LIMIT_WINDOW now ts).length →
        isRateLimited RATE_LIMIT_WINDOW RATE_LIMIT_MAX_MESSAGES now ts
          = (true, pruneTimestamps RATE_LIMIT_WINDOW now ts))
    ∧ (∀ now ts, (pruneTimestamps RATE_LIMIT_WINDOW now ts).length < RATE_LIMIT_MAX_MESSAGES →
        isRateLimited RATE_LIMIT_WINDOW RATE_LIMIT_MAX_MESSAGES now ts
          = (false, pruneTimestamps RATE_LIMIT_WINDOW now ts ++ [now])) := by
  refine ⟨fun a => ?_, fun now ts h => ?_, fun now ts h => ?_⟩
  · have := winCount_allowedCalls_le RATE_LIMIT_WINDOW RATE_LIMIT_MAX_MESSAGES calls [] hs
      (by simp) a
    have h0 : winCount RATE_LIMIT_WINDOW a ([] : List ℤ) = 0 := rfl
    rw [h0, Nat.max_zero] at this
    omega
  · simp [isRateLimited, h]
  · simp [isRateLimited, h]

open Relay in
/-- Witness for C1 at a concrete call sequence: five calls at seconds
0–4; only the first three are allowed through in the window `(-1, 29]`. -/
theorem C1_rate_limit_window_witness :
    winCount RATE_LIMIT_WINDOW (-1)
      (allowedCalls RATE_LIMIT_WINDOW RATE_LIMIT_MAX_MESSAGES [] [0, 1, 2, 3, 4])
    ≤ RATE_LIMIT_MAX_MESSAGES :=
  (C1_rate_limit_window [0, 1, 2, 3, 4] (by decide)).1 (-1)

namespace Relay

theorem mem_le_getLast {l : List ℤ} (h : l.Sorted (· ≤ ·)) {x y : ℤ}
    (hx : x ∈ l) (hy : l.getLast? = some y) : x ≤ y := by
  induction l with
  | nil => cases hx
  | cons a as ih =>
    rw [List.sorted_cons] at h
    cases as with
    | nil =>
      simp only [List.mem_singleton] at hx
      simp only [List.getLast?_singleton, Option.some.injEq] at hy
      omega
    | cons b bs =>
      rw [List.getLast?_cons_cons] at hy
      rcases List.mem_cons.1 hx with rfl | hx
      · have hmem : y ∈ b :: bs := by
          rcases List.mem_getLast?_eq_getLast (l := b :: bs) (x := y) hy with ⟨hne, rfl⟩
          exact List.getLast_mem hne
        exact h.1 y hmem
      · exact ih h.2 hx hy

end Relay

open Relay in
/-- C2: the duplicate check returns `true` iff the stored entry for the
author has exactly the new text and age strictly less than
`DUPLICATE_WINDOW`; on `true` the stored entry is unchanged, on `false`
it is replaced by `(text, now)`.  Consequently two identical messages
less than the window apart yield `(false, true)` (only the first
passes), and with a gap of at least the window both pass. -/
theorem C2_duplicate_check :
    (∀ (now : ℤ) (last : Option (String × ℤ)) (msg : String),
        (isDuplicate DUPLICATE_WINDOW now last msg).1 = true ↔
          ∃ lt : ℤ, last = some (msg, lt) ∧ now - lt < DUPLICATE_WINDOW)
    ∧ (∀ (now : ℤ) (last : Option (String × ℤ)) (msg : String),
        (isDuplicate DUPLICATE_WINDOW now last msg).1 = true →
          (isDuplicate DUPLICATE_WINDOW now last msg).2 = last)
    ∧ (∀ (now : ℤ) (last : Option (String × ℤ)) (msg : String),
        (isDuplicate DUPLICATE_WINDOW now last msg).1 = false →
          (isDuplicate DUPLICATE_WINDOW now last msg).2 = some (msg, now))
    ∧ (∀ (t₁ t₂ : ℤ) (l₀ : Option (String × ℤ)) (msg : String),
        (isDuplicate DUPLICATE_WINDOW t₁ l₀ msg).1 = false →
        t₂ - t₁ < DUPLICATE_WINDOW →
        (isDuplicate DUPLICATE_WINDOW t₂
          (isDuplicate DUPLICATE_WINDOW t₁ l₀ msg).2 msg).1 = true)
    ∧ (∀ (t₁ t₂ : ℤ) (l₀ : Option (String × ℤ)) (msg : String),
        (isDuplicate DUPLICATE_WINDOW t₁ l₀ msg).1 = false →
        DUPLICATE_WINDOW ≤ t₂ - t₁ →
        (isDuplicate DUPLICATE_WINDOW t₂
          (isDuplicate DUPLICATE_WINDOW t₁ l₀ msg).2 msg).1 = false) := by
  have hfalse : ∀ (now : ℤ) (last : Option (String × ℤ)) (msg : String),
      (isDuplicate DUPLICATE_WINDOW now last msg).1 = false →
        (isDuplicate DUPLICATE_WINDOW now last msg).2 = some (msg, now) := by
    intro now last msg h
    match last with
    | none => rfl
    | some (lm, lt) =>
      by_cases hc : lm = msg ∧ now - lt < DUPLICATE_WINDOW
      · exact absurd h (by simp [isDuplicate, hc])
      · simp [isDuplicate, hc]
  refine ⟨?_, ?_, hfalse, ?_, ?_⟩
  · intro now last msg
    match last with
    | none => simp [isDuplicate]
    | some (lm, lt) =>
      by_cases hc : lm = msg ∧ now - lt < DUPLICATE_WINDOW
      · simp only [isDuplicate, if_pos hc, true_iff]
        exact ⟨lt, by rw [hc.1], hc.2⟩
      · simp only [isDuplicate, if_neg hc, Bool.false_eq_true, false_iff, not_exists]
        rintro x ⟨heq, hlt⟩
        obtain ⟨rfl, rfl⟩ : lm = msg ∧ lt = x := by
          injection heq with h1; exact ⟨congrArg Prod.fst h1, congrArg Prod.snd h1⟩
        exact hc ⟨rfl, hlt⟩
  · intro now last msg h
    match last with
    | none => simp [isDuplicate] at h
    | some (lm, lt) =>
      by_cases hc : lm = msg ∧ now - lt < DUPLICATE_WINDOW
      · simp only [isDuplicate, if_pos hc]
      · exact absurd h (by simp [isDuplicate, hc])
  · intro t₁ t₂ l₀ msg h1 hgap
    rw [hfalse t₁ l₀ msg h1]
    simp [isDuplicate, hgap]
  · intro t₁ t₂ l₀ msg h1 hgap
    rw [hfalse t₁ l₀ msg h1]
    simp only [isDuplicate]
    rw [if_neg fun hcond =>
      absurd hcond.2 (by omega : ¬(t₂ - t₁ < DUPLICATE_WINDOW))]

open Relay in
/-- Witness for C2: author sends "hi" at `t = 0` (fresh state, passes)
and again at `t = 5`; the second is flagged as a duplicate. -/
theorem C2_duplicate_check_witness :
    (isDuplicate DUPLICATE_WINDOW 5
      (isDuplicate DUPLICATE_WINDOW 0 none "hi").2 "hi").1 = true :=
  C2_duplicate_check.2.2.2.1 0 5 none "hi" (by decide) (by decide)

open Relay in
/-- C9: the periodic spam-state cleanup is decision-preserving: for any
spam-tracking state (with the author's timestamp list in chronological
order, as the code maintains it), any cleanup time and any later check
time, cleanup changes neither the result of a following rate-limit
check nor that of a following duplicate check, for any author and text. -/
theorem C9_cleanup_decision_preserving
    (f : String → List ℤ) (g : String → Option (String × ℤ))
    (author msg : String) (tc t : ℤ) (hle : tc ≤ t)
    (hsorted : (f author).Sorted (· ≤ ·)) :
    (isRateLimited RATE_LIMIT_WINDOW RATE_LIMIT_MAX_MESSAGES t
        (cleanupTimestamps RATE_LIMIT_WINDOW tc f author)).1
      = (isRateLimited RATE_LIMIT_WINDOW RATE_LIMIT_MAX_MESSAGES t (f author)).1
    ∧ (isDuplicate DUPLICATE_WINDOW t
        (cleanupLastMessages DUPLICATE_WINDOW tc g author) msg).1
      = (isDuplicate DUPLICATE_WINDOW t (g author) msg).1 := by
  constructor
  · show (isRateLimited _ _ t (cleanupTsList RATE_LIMIT_WINDOW tc (f author))).1 = _
    cases hL : (f author).getLast? with
    | none =>
      have hnil : f author = [] := List.getLast?_eq_none_iff.1 hL
      simp [cleanupTsList, hL, hnil]
    | some last =>
      by_cases hstale : last < tc - RATE_LIMIT_WINDOW
      · have hfilter : pruneTimestamps RATE_LIMIT_WINDOW t (f author) = [] := by
          unfold pruneTimestamps
          rw [List.filter_eq_nil_iff]
          intro x hx
          have := mem_le_getLast hsorted hx hL
          simp only [decide_eq_true_eq, not_lt]
          unfold RATE_LIMIT_WINDOW at hstale ⊢
          omega
        have hL0 : pruneTimestamps RATE_LIMIT_WINDOW t [] = [] := rfl
        simp only [cleanupTsList, hL, if_pos hstale, isRateLimited, hfilter, hL0]
      · simp [cleanupTsList, hL, hstale]
  · cases hG : g author with
    | none => simp [cleanupLastMessages, cleanupLastEntry, hG]
    | some p =>
      obtain ⟨m₀, ts₀⟩ := p
      by_cases hstale : DUPLICATE_WINDOW < tc - ts₀
      · have hcl : cleanupLastMessages DUPLICATE_WINDOW tc g author = none := by
          simp [cleanupLastMessages, cleanupLastEntry, hG, hstale]
        rw [hcl]
        by_cases hc : m₀ = msg ∧ t - ts₀ < DUPLICATE_WINDOW
        · exfalso
          omega
        · simp [isDuplicate, hc]
      · have hcl : cleanupLastMessages DUPLICATE_WINDOW tc g author = some (m₀, ts₀) := by
          simp [cleanupLastMessages, cleanupLastEntry, hG, hstale]
        rw [hcl]

open Relay in
/-- Witness for C9: a state with one fresh and one stale author entry,
cleanup at `t = 100`, checks at `t = 100`. -/
theorem C9_cleanup_decision_preserving_witness :
    (isRateLimited RATE_LIMIT_WINDOW RATE_LIMIT_MAX_MESSAGES 100
        (cleanupTimestamps RATE_LIMIT_WINDOW 100 (fun _ => [1, 2]) "Alice")).1
      = (isRateLimited RATE_LIMIT_WINDOW RATE_LIMIT_MAX_MESSAGES 100
          ((fun (_ : String) => [(1 : ℤ), 2]) "Alice")).1
    ∧ (isDuplicate DUPLICATE_WINDOW 100
        (cleanupLastMessages DUPLICATE_WINDOW 100 (fun _ => some ("hi", 2)) "Alice") "hi").1
      = (isDuplicate DUPLICATE_WINDOW 100
          ((fun (_ : String) => some ("hi", (2 : ℤ))) "Alice") "hi").1 :=
  C9_cleanup_decision_preserving (fun _ => [1, 2]) (fun _ => some ("hi", 2))
    "Alice" "hi" 100 100 (by decide) (by decide)


open Relay in
/-- C3 counterexample: the claim says a 401 send response triggers a
token refresh and exactly one retry, i.e. a second POST; but
`send_message` issues exactly one POST when the environment answers 401,
and the message is dropped. -/
theorem C3_send_retry_counterexample :
    (send_message (fun _ => .ok 401)).posts = 1
    ∧ (send_message (fun _ => .ok 401)).delivered = false
    ∧ (1 : ℕ) ≠ 2 :=
  ⟨rfl, rfl, by decide⟩

open Relay in
/-- C3 amended: `send_message` issues exactly one POST for every
environment response — a 401 gets no token refresh and no retry; every
non-200 status (and every raised exception) just logs and drops the
message, and the message is delivered iff the single POST returns 200. -/
theorem C3_send_no_retry (post : ℕ → Except NetError ℕ) :
    (send_message post).posts = 1
    ∧ ((send_message post).delivered = true ↔ post 0 = .ok 200) := by
  refine ⟨?_, ?_⟩
  · cases h : post 0 <;> simp [send_message, h]
  · cases h : post 0 with
    | ok code => simp [send_message, h]
    | error e => simp [send_message, h]

open Relay in
/-- C4 counterexample: three consecutive poll-call failures, each after
a successful relocate + re-handshake, observe backoff sleeps of
5, 5, 5 — not the claimed floor, 2×floor, 4×floor (5, 10, 20) — because
`backoff = 5` is executed right after the handshake succeeds, before
any polling. -/
theorem C4_backoff_counterexample :
    runReadLoop BACKOFF_FLOOR [.pollFail, .pollFail, .pollFail] = [5, 5, 5]
    ∧ ([5, 5, 5] : List ℕ) ≠ [5, 10, 20] :=
  ⟨rfl, by decide⟩

open Relay in
/-- C4 amended: the reconnect delay starts at the floor (5 s) and on a
locate or handshake failure the observed sleep is the current delay,
which is then doubled up to the cap (300 s); the delay resets to the
floor on every successful handshake (on entering `Polling`), not after a
successful polling cycle — so an iteration that reaches polling and then
fails (or ends) always sleeps the floor, and three consecutive
locate/handshake failures observe floor, 2×floor, 4×floor; delays never
exceed the cap. -/
theorem C4_backoff_behavior :
    (∀ b, loopIter b .locateFail = (b, min (b * 2) MAX_BACKOFF))
    ∧ (∀ b, loopIter b .handshakeFail = (b, min (b * 2) MAX_BACKOFF))
    ∧ (∀ b o, (o = CycleOutcome.pollFail ∨ o = CycleOutcome.chatEnd) →
        loopIter b o = (BACKOFF_FLOOR, min (BACKOFF_FLOOR * 2) MAX_BACKOFF))
    ∧ runReadLoop BACKOFF_FLOOR [.locateFail, .locateFail, .locateFail] = [5, 10, 20]
    ∧ (∀ (os : List CycleOutcome) (b : ℕ), b ≤ MAX_BACKOFF →
        (runReadLoop b os).all (fun sleep => decide (sleep ≤ MAX_BACKOFF)) = true) := by
  refine ⟨fun b => rfl, fun b => rfl, fun b o h => ?_, rfl, fun os => ?_⟩
  · rcases h with rfl | rfl <;> rfl
  · induction os with
    | nil => intro b _; rfl
    | cons o os ih =>
      intro b hb
      simp only [runReadLoop, List.all_cons, Bool.and_eq_true, decide_eq_true_eq]
      refine ⟨?_, ih _ ?_⟩
      · unfold MAX_BACKOFF at hb ⊢
        cases o <;> simp [loopIter, BACKOFF_FLOOR, MAX_BACKOFF] <;> omega
      · unfold MAX_BACKOFF at hb ⊢
        cases o <;> simp [loopIter, BACKOFF_FLOOR, MAX_BACKOFF]

open Relay in
/-- Witness for C4 amended, at a concrete run: starting at the floor,
all observed sleeps of a locate-fail/poll-fail/locate-fail run stay
within the cap. -/
theorem C4_backoff_behavior_witness :
    (runReadLoop 5 [.locateFail, .pollFail, .locateFail]).all
      (fun sleep => decide (sleep ≤ MAX_BACKOFF)) = true :=
  C4_backoff_behavior.2.2.2.2 [.locateFail, .pollFail, .locateFail] 5 (by decide)

open Relay in
/-- C5 counterexample: with the spec's scenario block list
`["badword", "/f[uo]+bar/i"]` and message `"this has a FooBar in it"`,
the spec-modelled pattern `f[uo]+bar` matches the lowercased message, so
under the claim the check would return the matched pattern; but
`is_message_blocked` treats every entry as a literal substring and
returns "not blocked". -/
theorem C5_moderation_counterexample :
    containsFUoBar (pyLower "this has a FooBar in it").data = true
    ∧ is_message_blocked ["badword", "/f[uo]+bar/i"] "this has a FooBar in it" = none :=
  ⟨by decide, by decide⟩

open Relay in
/-- C5 amended: the moderation check performs a case-insensitive literal
substring search only — entries are never compiled or evaluated as regex
patterns.  The empty list blocks nothing; a `some` result is a list
entry that is a substring of the lowercased message; `none` exactly when
no entry matches; and the first matching entry in list order wins. -/
theorem C5_moderation_literal_only :
    (∀ msg, is_message_blocked [] msg = none)
    ∧ (∀ terms msg t, is_message_blocked terms msg = some t →
        t ∈ terms ∧ isSubstring t.data (pyLower msg).data = true)
    ∧ (∀ terms msg, is_message_blocked terms msg = none ↔
        ∀ t ∈ terms, isSubstring t.data (pyLower msg).data = false)
    ∧ (∀ (pre post : List String) (t : String) (msg : String),
        isSubstring t.data (pyLower msg).data = true →
        (∀ u ∈ pre, isSubstring u.data (pyLower msg).data = false) →
        is_message_blocked (pre ++ t :: post) msg = some t) := by
  refine ⟨fun msg => rfl, fun terms msg t h => ?_, fun terms msg => ?_, ?_⟩
  · unfold is_message_blocked at h
    split at h
    · exact absurd h (by simp)
    · refine ⟨List.mem_of_find?_eq_some h, ?_⟩
      have hp := List.find?_some h
      simpa using hp
  · unfold is_message_blocked
    split
    case _ hemp =>
      rw [List.isEmpty_iff] at hemp
      subst hemp
      simp
    case _ hemp =>
      rw [List.find?_eq_none]
      simp
  · intro pre post t msg ht hpre
    unfold is_message_blocked
    rw [if_neg (by simp)]
    induction pre with
    | nil =>
      rw [List.nil_append]
      exact List.find?_cons_of_pos _ (by simpa using ht)
    | cons u us ih =>
      rw [List.cons_append, List.find?_cons_of_neg, ih]
      · exact fun v hv => hpre v (List.mem_cons_of_mem u hv)
      · simp [hpre u (List.mem_cons_self u us)]

open Relay in
/-- Witness for C5 amended: list `["aa", "b"]`, message `"xxBy"` — the
entry `"b"` matches the lowercased message and is returned. -/
theorem C5_moderation_literal_only_witness :
    is_message_blocked (["aa"] ++ "b" :: []) "xxBy" = some "b" :=
  C5_moderation_literal_only.2.2.2 ["aa"] [] "b" "xxBy" (by decide) (by decide)

open Relay in
/-- C6: the destination-liveness probe fails open.  Any raised
network/parse error on the streams query yields `true` (assume live);
an error on the follow-up username lookup also yields `true`; and a
`false` (offline) result is only possible when the streams query
returned successfully with a payload showing no live stream (and the
username lookup also completed without raising). -/
theorem C6_liveness_probe_fails_open :
    (∀ (e : NetError) (user : Except NetError Unit),
        is_channel_live (.error e) user = true)
    ∧ (∀ (data : List StreamInfo) (e : NetError),
        is_channel_live (.ok data) (.error e) = true)
    ∧ (∀ (streams : Except NetError (List StreamInfo)) (user : Except NetError Unit),
        is_channel_live streams user = false →
        (∃ data, streams = .ok data ∧ streamsShowLive data = false)
          ∧ ∃ u, user = .ok u) := by
  refine ⟨fun e user => rfl, fun data e => ?_, fun streams user h => ?_⟩
  · cases data with
    | nil => rfl
    | cons s0 rest =>
      simp only [is_channel_live]
      split <;> rfl
  · cases streams with
    | error e => exact absurd h (by simp [is_channel_live])
    | ok data =>
      cases user with
      | error e =>
        cases data with
        | nil => exact absurd h (by simp [is_channel_live, offlineAfterStreamsOk])
        | cons s0 rest =>
          exfalso
          revert h
          simp only [is_channel_live, offlineAfterStreamsOk]
          split <;> simp
      | ok u =>
        refine ⟨⟨data, rfl, ?_⟩, u, rfl⟩
        cases data with
        | nil => rfl
        | cons s0 rest =>
          revert h
          simp only [is_channel_live, streamsShowLive]
          split
          case _ hlive => simp
          case _ hlive => simp [hlive]

open Relay in
/-- Witness for C6 at a concrete input: an empty streams payload with a
successful username lookup yields `false`, and the theorem recovers the
successful not-live streams response. -/
theorem C6_liveness_probe_fails_open_witness :
    (∃ data, (Except.ok [] : Except NetError (List StreamInfo)) = .ok data
        ∧ streamsShowLive data = false)
      ∧ ∃ u, (Except.ok () : Except NetError Unit) = .ok u :=
  C6_liveness_probe_fails_open.2.2 (.ok []) (.ok ()) (by decide)

open Relay in
/-- C7 counterexample: in the scenario (author "Alice" sends
`"HELLO :wave:"` three times within 10 s, rate limit 2 per 30 s) the
claim expects deliveries `[true, true, false]` (message 3 dropped as
rate-limited); the pipeline actually delivers only the first message —
the duplicate check runs before the rate-limit check and drops
messages 2 and 3. -/
theorem C7_scenario_counterexample :
    (runPipeline 2 30 30 [(":wave:", "👋")] [] initialSpamState
        [(0, "Alice", "HELLO :wave:"), (5, "Alice", "HELLO :wave:"),
         (10, "Alice", "HELLO :wave:")]).map isDeliveredOutcome
      = [true, false, false]
    ∧ ([true, false, false] : List Bool) ≠ [true, true, false] :=
  ⟨by decide, by decide⟩

open Relay in
/-- C7 amended: in that scenario the pipeline delivers message 1 with
the first letter capitalized (the text is not lowercased) and `:wave:`
substituted through the emoji map, and drops messages 2 and 3 as
duplicates (identical post-transform text within the 30 s duplicate
window; the duplicate check precedes the rate-limit check, which is
therefore never reached). -/
theorem C7_scenario_actual :
    runPipeline 2 30 30 [(":wave:", "👋")] [] initialSpamState
        [(0, "Alice", "HELLO :wave:"), (5, "Alice", "HELLO :wave:"),
         (10, "Alice", "HELLO :wave:")]
      = [.delivered "[YT] Alice: HELLO 👋", .duplicate, .duplicate] := by
  decide

open Relay in
/-- C8 counterexample: `collapse_emojis` is not idempotent (same
`max_unique = 5` both times).  On `":a:b: :b:"` the first pass leaves
the two distinct shortcodes alone but the jam fix rewrites the jammed
`":b:"` (sharing its opening colon with `":a:"`'s closing colon) to
`":a :b: :b:"`; a second pass now sees `":b:"` twice and collapses to
`":a :b: x2"`. -/
theorem C8_collapse_not_idempotent :
    collapse_emojis 5 ":a:b: :b:".data = ":a :b: :b:".data
    ∧ collapse_emojis 5 (collapse_emojis 5 ":a:b: :b:".data) = ":a :b: x2".data
    ∧ ":a :b: x2".data ≠ ":a :b: :b:".data :=
  ⟨by decide, by decide, by decide⟩

open Relay in
/-- C8 amended: emoji-collapsing is the identity — and hence idempotent
(with the same `max_unique`) — on every message in which the scanner
finds no emoji shortcode; on messages with shortcodes a second
application can differ, because the jammed-emoji space fix can expose a
new shortcode match to the second pass. -/
theorem C8_collapse_idempotent_on_shortcode_free (maxU : ℕ) (m : List Char)
    (h : findAllEmojis m = []) :
    collapse_emojis maxU m = m
    ∧ collapse_emojis maxU (collapse_emojis maxU m) = collapse_emojis maxU m := by
  have h1 : collapse_emojis maxU m = m := by
    simp [collapse_emojis, h]
  exact ⟨h1, by rw [h1, h1]⟩

open Relay in
/-- Witness for C8 amended at a concrete shortcode-free message. -/
theorem C8_collapse_idempotent_on_shortcode_free_witness :
    collapse_emojis 5 "hello world : not-a-shortcode".data
        = "hello world : not-a-shortcode".data
    ∧ collapse_emojis 5 (collapse_emojis 5 "hello world : not-a-shortcode".data)
        = collapse_emojis 5 "hello world : not-a-shortcode".data :=
  C8_collapse_idempotent_on_shortcode_free 5 "hello world : not-a-shortcode".data
    (by decide)

open Relay in
/-- C10: the file-based stream-status check gating the consumer loop
fails closed: every failure to open or parse the file yields `false`
(offline, so the relay pauses — the gate does not consume in that pass),
and `true` requires some channel entry that is a JSON object whose
`live` field is exactly the boolean `true` — the opposite polarity of
the fail-open destination-liveness probe, which answers `true` on any
error. -/
theorem C10_stream_status_fails_closed :
    (∀ e : ReadError, read_stream_status (.error e) = false)
    ∧ (∀ entries : List (String × Json),
        read_stream_status (.ok entries) = true ↔
          ∃ p ∈ entries, channelIsLive p = true)
    ∧ (∀ e : ReadError, consumesAfterStatusCheck (.error e) = false)
    ∧ (∀ (e : NetError) (user : Except NetError Unit),
        is_channel_live (.error e) user = true) := by
  refine ⟨fun e => rfl, fun entries => ?_, fun e => rfl, fun e user => rfl⟩
  simp [read_stream_status, List.any_eq_true]

open Relay in
/-- Witness for C10's characterization at concrete file contents: a file
with one non-live channel object reads as offline; one with a `live:
true` object reads as live. -/
theorem C10_stream_status_fails_closed_witness :
    (read_stream_status (.ok [("ch", .obj [("live", .bool false)])]) = true ↔
      ∃ p ∈ [("ch", Json.obj [("live", .bool false)])], channelIsLive p = true)
    ∧ (read_stream_status (.ok [("ch", .obj [("live", .bool true)])]) = true ↔
      ∃ p ∈ [("ch", Json.obj [("live", .bool true)])], channelIsLive p = true) :=
  ⟨C10_stream_status_fails_closed.2.1 [("ch", .obj [("live", .bool false)])],
   C10_stream_status_fails_closed.2.1 [("ch", .obj [("live", .bool true)])]⟩

/-! ### Validation of the embedding

Concrete evaluations checking the embedded functions against the
behaviour of the source (including every `collapse_emojis`,
`normalize`-adjacent and `convert` expectation of the repository's
`tests/test_emoji_converter.py` that falls in the embedded scope). -/

section Validation
open Relay
example : (isRateLimited 30 3 10 [0, 5]).1 = false := by decide
example : (isRateLimited 30 3 10 [0, 5, 9]).1 = true := by decide
example : allowedCalls 30 3 [] [0, 1, 2, 3, 4] = [0, 1, 2] := by decide
example : (isDuplicate 30 10 (some ("hi", 0)) "hi").1 = true := by decide
example : (isDuplicate 30 40 (some ("hi", 0)) "hi").1 = false := by decide
example : cleanupTsList 30 100 [0, 5] = [] := by decide
example : cleanupTsList 30 100 [0, 80] = [0, 80] := by decide
example : String.mk (collapse_emojis 5 ":a:b: :b:".data) = ":a :b: :b:" := by decide
example : String.mk (collapse_emojis 5 (collapse_emojis 5 ":a:b: :b:".data)) = ":a :b: x2" := by decide
example : String.mk (collapse_emojis 5 "I :heart: :heart: :heart: :smile: text".data)
    = "I :heart: x3 :smile: text" := by decide
example : String.mk (collapse_emojis 5 ":a: :b: :c: :d: :e: :f: :g:".data)
    = ":a: :b: :c: :d: :e:" := by decide
example : String.mk (collapse_emojis 5 "Love Mom:yougotthis::yougotthis::thanksdoc::thanksdoc:".data)
    = "Love Mom :yougotthis: x2 :thanksdoc: x2" := by decide
example : String.mk (collapse_emojis 5 "hello :wave: nice :wave: bye".data)
    = "hello :wave: x2 nice bye" := by decide
example : String.mk (collapse_emojis 2 ":a: :b: :c: :d:".data) = ":a: :b:" := by decide
example : String.mk (convert [(":wave:", "W")] "HELLO :wave:".data) = "HELLO W" := by decide
example : is_message_blocked ["badword"] "No BadWord here" = some "badword" := by decide
example : is_message_blocked [] "anything" = none := by decide
example : is_channel_live (.error .timeout) (.ok ()) = true := by decide
example : is_channel_live (.ok [⟨some "live"⟩]) (.ok ()) = true := by decide
example : is_channel_live (.ok []) (.ok ()) = false := by decide
example : is_channel_live (.ok []) (.error .timeout) = true := by decide
example : (send_message (fun _ => .ok 401)).posts = 1 := by decide
example : runReadLoop 5 [.pollFail, .pollFail, .pollFail] = [5, 5, 5] := by decide
example : runReadLoop 5 [.locateFail, .locateFail, .locateFail] = [5, 10, 20] := by decide
example : read_stream_status (.error .fileMissing) = false := by decide
example : read_stream_status (.ok [("ch", .obj [("live", .bool true)])]) = true := by decide
example : read_stream_status (.ok [("ch", .obj [("live", .str "true")])]) = false := by decide
example :
    runPipeline 2 30 30 [(":wave:", "W")] [] initialSpamState
      [(0, "Alice", "HELLO :wave:"), (5, "Alice", "HELLO :wave:"), (10, "Alice", "HELLO :wave:")]
    = [.delivered "[YT] Alice: HELLO W", .duplicate, .duplicate] := by decide
end Validation
